import Mathlib

/-!
Shallow embedding of the pastebin-lite service core: paste records, the
key-value store, the creation handler (POST /api/pastes), the JSON
retrieval handler (GET /api/pastes/:id) and the HTML retrieval handler
(GET /p/:id), translated from src/server.js, together with the variant
JSON retrieval handler of src/unnamed/part_000.
-/

/-- `content.trim()` of JavaScript: leading and trailing whitespace
removed (the whitespace set approximated by `Char.isWhitespace`). -/
def jsTrim (s : String) : String :=
  String.mk ((s.data.dropWhile Char.isWhitespace).reverse.dropWhile Char.isWhitespace).reverse

/-- A stored paste record, as written by `redis.hSet` in the creation
handler (src/server.js lines 95-101): `content` trimmed, `created_at` in
epoch milliseconds, `ttl_seconds` and `max_views` optional (stored as the
empty string when absent), `views` a counter starting at 0. -/
structure Paste where
  content : String
  created_at : Nat
  ttl_seconds : Option Nat
  max_views : Option Nat
  views : Nat
deriving DecidableEq, Repr

/-- The Redis keyspace restricted to the `paste:{id}` hashes: an
association list from id to record. -/
abbrev Store := List (String × Paste)

/-- `redis.hGetAll` of key `paste:{id}` : the record stored at `id`. -/
def storeGet : Store → String → Option Paste
  | [], _ => none
  | (k, p) :: rest, i => if k = i then some p else storeGet rest i

/-- `redis.del` of key `paste:{id}` : every binding of `id` removed. -/
def storeDel : Store → String → Store
  | [], _ => []
  | (k, p) :: rest, i => if k = i then storeDel rest i else (k, p) :: storeDel rest i

/-- `redis.hSet` of key `paste:{id}` writing a whole record: the binding
of `id` replaced. -/
def storeSet (s : Store) (i : String) (p : Paste) : Store :=
  (i, p) :: storeDel s i

/-- `paste.ttl_seconds ? Number(paste.ttl_seconds) : null` (src/server.js
lines 131-132): an absent field is stored as the empty string, which is
falsy; a stored `0` is the truthy string `"0"`, but the later checks
`ttl && ...` and `ttl ? ... : null` treat the number 0 as null again, so
both absence and 0 behave as null throughout the handler. -/
def jsNumField : Option Nat → Option Nat
  | none => none
  | some 0 => none
  | some (n + 1) => some (n + 1)

/-- `ttl && currentTime >= createdAt + ttl * 1000` (src/server.js
line 136). -/
def ttlExpired (ttl : Option Nat) (createdAt nowMs : Nat) : Bool :=
  match ttl with
  | none => false
  | some t => decide (createdAt + t * 1000 ≤ nowMs)

/-- `maxViews && views >= maxViews` (src/server.js line 141). -/
def viewsExhausted (maxViews : Option Nat) (views : Nat) : Bool :=
  match maxViews with
  | none => false
  | some m => decide (m ≤ views)

/-- The JSON response of `GET /api/pastes/:id`: the HTTP status, the
`error` field of a 404 body, and the `content` / `remaining_views` /
`expires_at` fields of a 200 body. `expires_at` is kept as the epoch
millisecond value `created_at + ttl * 1000` that the handler renders as
an ISO timestamp. -/
structure ApiResponse where
  status : Nat
  error : Option String
  content : Option String
  remaining_views : Option Nat
  expires_at : Option Nat
deriving DecidableEq, Repr

/-- `GET /api/pastes/:id` (src/server.js lines 121-156): look the record
up, 404 when absent, 404 with `redis.del` when expired by time or
exhausted by views, otherwise `hIncrBy views 1` and 200. The
`remaining_views` field is `Math.max(maxViews - newViews, 0)`, which is
truncated subtraction on naturals. Returns the response together with
the store after the request. -/
def apiGetPaste (store : Store) (i : String) (nowMs : Nat) : ApiResponse × Store :=
  match storeGet store i with
  | none => (⟨404, some "Paste not found", none, none, none⟩, store)
  | some paste =>
    if paste.content = "" then
      (⟨404, some "Paste not found", none, none, none⟩, store)
    else
      let ttl := jsNumField paste.ttl_seconds
      let maxViews := jsNumField paste.max_views
      if ttlExpired ttl paste.created_at nowMs then
        (⟨404, some "Paste expired", none, none, none⟩, storeDel store i)
      else if viewsExhausted maxViews paste.views then
        (⟨404, some "View limit exceeded", none, none, none⟩, storeDel store i)
      else
        let newViews := paste.views + 1
        (⟨200, none, some paste.content,
            maxViews.map fun m => m - newViews,
            ttl.map fun t => paste.created_at + t * 1000⟩,
          storeSet store i { paste with views := newViews })

/-- The five characters the regex `[&<>"']` of `escapeHtml` matches. -/
def ampChar : Char := Char.ofNat 38

/-- The character `<`. -/
def ltChar : Char := Char.ofNat 60

/-- The character `>`. -/
def gtChar : Char := Char.ofNat 62

/-- The double-quote character. -/
def quotChar : Char := Char.ofNat 34

/-- The single-quote character. -/
def aposChar : Char := Char.ofNat 39

/-- One character of `str.replace(/[&<>"']/g, c => ({...}[c]))`
(src/server.js lines 54-62): a matched character becomes its entity,
every other character is left as it is. -/
def escapeChar (c : Char) : String :=
  if c = ampChar then "&amp;"
  else if c = ltChar then "&lt;"
  else if c = gtChar then "&gt;"
  else if c = quotChar then "&quot;"
  else if c = aposChar then "&#39;"
  else String.singleton c

/-- The characters of a string escaped one by one, left to right. -/
def escapeList : List Char → String
  | [] => ""
  | c :: rest => escapeChar c ++ escapeList rest

/-- `escapeHtml` (src/server.js lines 54-62): the global regex replace
visits every character once, left to right, and concatenates the
replacements. -/
def escapeHtml (s : String) : String :=
  escapeList s.data

/-- The response of `GET /p/:id`: a 404 page, or the 200 page whose body
interpolates `escapeHtml(paste.content)`, the post-increment view count,
the optional view limit and the optional expiry time (kept in epoch
milliseconds; the handler renders it with `toLocaleString`). -/
inductive HtmlResponse where
  | notFound (status : Nat) (body : String)
  | ok (status : Nat) (escapedContent : String) (newViews : Nat)
      (maxViews : Option Nat) (expiresAtMs : Option Nat)
deriving DecidableEq, Repr

/-- The HTTP status of an HTML response. -/
def HtmlResponse.status : HtmlResponse → Nat
  | notFound st _ => st
  | ok st _ _ _ _ => st

/-- `GET /p/:id` (src/server.js lines 159-209): the same lookup, expiry
check, exhaustion check, deletion and increment as the JSON handler, with
HTML bodies. -/
def htmlGetPaste (store : Store) (i : String) (nowMs : Nat) : HtmlResponse × Store :=
  match storeGet store i with
  | none => (HtmlResponse.notFound 404 "<h1>404 - Paste not found</h1>", store)
  | some paste =>
    if paste.content = "" then
      (HtmlResponse.notFound 404 "<h1>404 - Paste not found</h1>", store)
    else
      let ttl := jsNumField paste.ttl_seconds
      let maxViews := jsNumField paste.max_views
      if ttlExpired ttl paste.created_at nowMs then
        (HtmlResponse.notFound 404 "<h1>404 - Paste expired</h1>", storeDel store i)
      else if viewsExhausted maxViews paste.views then
        (HtmlResponse.notFound 404 "<h1>404 - View limit exceeded</h1>", storeDel store i)
      else
        let newViews := paste.views + 1
        (HtmlResponse.ok 200 (escapeHtml paste.content) newViews maxViews
            (ttl.map fun t => paste.created_at + t * 1000),
          storeSet store i { paste with views := newViews })

/-- `GET /api/pastes/:id` as written in src/unnamed/part_000 (lines
96-125): the same availability checks as src/server.js, but with no
`redis.del` on the expired and exhausted branches — the record stays in
the store — and different error strings. -/
def apiGetPastePart0 (store : Store) (i : String) (nowMs : Nat) : ApiResponse × Store :=
  match storeGet store i with
  | none => (⟨404, some "Not found", none, none, none⟩, store)
  | some paste =>
    if paste.content = "" then
      (⟨404, some "Not found", none, none, none⟩, store)
    else
      let ttl := jsNumField paste.ttl_seconds
      let maxViews := jsNumField paste.max_views
      if ttlExpired ttl paste.created_at nowMs then
        (⟨404, some "Expired", none, none, none⟩, store)
      else if viewsExhausted maxViews paste.views then
        (⟨404, some "View limit exceeded", none, none, none⟩, store)
      else
        let newViews := paste.views + 1
        (⟨200, none, some paste.content,
            maxViews.map fun m => m - newViews,
            ttl.map fun t => paste.created_at + t * 1000⟩,
          storeSet store i { paste with views := newViews })

/-- The body of `POST /api/pastes` as parsed JSON: `content` is `some`
exactly when the field is present and a string; `ttl_seconds` and
`max_views` are JSON numbers, kept as rationals so that non-integral
values such as 1.5 are representable. -/
structure CreateReq where
  content : Option String
  ttl_seconds : Option Rat
  max_views : Option Rat

/-- `!content || typeof content !== "string" || !content.trim()`
(src/server.js line 79): `none` stands for a missing or non-string
value, and the empty and the whitespace-only string are rejected. -/
def badContent : Option String → Bool
  | none => true
  | some s => decide (s = "") || decide (jsTrim s = "")

/-- `v !== undefined && (!Number.isInteger(v) || v < 1)` (src/server.js
lines 83 and 87): `Number.isInteger` of a rational is `den = 1`. -/
def badIntField : Option Rat → Bool
  | none => false
  | some q => decide (q.den ≠ 1) || decide (q < 1)

/-- A validated optional integer field as stored by `hSet`
(`ttl_seconds ?? ""`): fields that passed validation satisfy `den = 1`
and `1 ≤ q`, so `q.num.toNat` is their integer value. -/
def storedIntField (q : Option Rat) : Option Nat :=
  q.map fun v => v.num.toNat

/-- The response of `POST /api/pastes`: 400 with an `error` field, or
201 with the fresh `id`. -/
structure CreateResponse where
  status : Nat
  error : Option String
  id : Option String
deriving DecidableEq, Repr

/-- `uuidv4().slice(0, 8)` (src/server.js line 91). -/
def sliceId (uuid : String) : String := String.mk (uuid.data.take 8)

/-- `POST /api/pastes` (src/server.js lines 75-118): validate content,
`ttl_seconds` and `max_views` in that order, then write the record via
`hSet` with the trimmed content, the request time as `created_at` and
`views = 0`. `uuid` is the string the external uuid library returned and
`nowMs` is `Date.now()`. Returns the response with the store after the
request. -/
def createPaste (store : Store) (req : CreateReq) (uuid : String) (nowMs : Nat) :
    CreateResponse × Store :=
  if badContent req.content then
    (⟨400, some "content must be a non-empty string", none⟩, store)
  else if badIntField req.ttl_seconds then
    (⟨400, some "ttl_seconds must be integer >= 1", none⟩, store)
  else if badIntField req.max_views then
    (⟨400, some "max_views must be integer >= 1", none⟩, store)
  else
    let i := sliceId uuid
    let paste : Paste :=
      { content := jsTrim (req.content.getD "")
        created_at := nowMs
        ttl_seconds := storedIntField req.ttl_seconds
        max_views := storedIntField req.max_views
        views := 0 }
    (⟨201, none, some i⟩, storeSet store i paste)

/-- `n` sequential retrievals of one id through the JSON handler, all at
the same request time: the list of responses and the final store. -/
def runGets : Store → String → Nat → Nat → List ApiResponse × Store
  | store, _, _, 0 => ([], store)
  | store, i, nowMs, n + 1 =>
    let step := apiGetPaste store i nowMs
    let rest := runGets step.2 i nowMs n
    (step.1 :: rest.1, rest.2)

/-- The lowercase hexadecimal digits. -/
def hexDigits : List Char := "0123456789abcdef".data

/-- The textual shape of `uuidv4()` that the id generation relies on
(RFC 4122 canonical form: 36 characters, of which the first eight are
hexadecimal digits; the external uuid library guarantees this). -/
def uuidShape (s : String) : Bool :=
  decide (s.data.length = 36) && (s.data.take 8).all fun c => hexDigits.contains c

/-! ## Store lemmas -/

theorem storeGet_storeDel_self (s : Store) (i : String) :
    storeGet (storeDel s i) i = none := by
  induction s with
  | nil => simp [storeDel, storeGet]
  | cons kv rest ih =>
    obtain ⟨k, p⟩ := kv
    by_cases hk : k = i <;> simp [storeDel, storeGet, hk, ih]

theorem storeGet_storeDel_ne (s : Store) (i j : String) (h : j ≠ i) :
    storeGet (storeDel s i) j = storeGet s j := by
  induction s with
  | nil => simp [storeDel]
  | cons kv rest ih =>
    obtain ⟨k, p⟩ := kv
    by_cases hk : k = i
    · have hkj : k ≠ j := fun hkj => h (hkj ▸ hk)
      simp [storeDel, storeGet, hk, hkj, Ne.symm h, ih]
    · simp [storeDel, storeGet, hk, ih]

theorem storeGet_storeSet (s : Store) (i : String) (p : Paste) (j : String) :
    storeGet (storeSet s i p) j = if j = i then some p else storeGet s j := by
  by_cases hj : j = i
  · subst hj
    simp [storeSet, storeGet]
  · have hij : i ≠ j := fun hij => hj hij.symm
    simp [storeSet, storeGet, hij, hj, storeGet_storeDel_ne s i j hj]

theorem storeDel_storeDel (s : Store) (i : String) :
    storeDel (storeDel s i) i = storeDel s i := by
  induction s with
  | nil => simp [storeDel]
  | cons kv rest ih =>
    obtain ⟨k, p⟩ := kv
    by_cases hk : k = i <;> simp [storeDel, hk, ih]

theorem storeDel_storeSet (s : Store) (i : String) (p : Paste) :
    storeDel (storeSet s i p) i = storeDel s i := by
  simp [storeSet, storeDel, storeDel_storeDel]

theorem storeSet_storeSet (s : Store) (i : String) (p q : Paste) :
    storeSet (storeSet s i p) i q = storeSet s i q := by
  simp [storeSet, storeDel, storeDel_storeDel]

/-! ## Branch lemmas for the retrieval handlers -/

theorem jsNumField_pos (n : Nat) (h : 0 < n) : jsNumField (some n) = some n := by
  cases n with
  | zero => omega
  | succ m => rfl

theorem apiGetPaste_absent (s : Store) (i : String) (t : Nat)
    (h : storeGet s i = none) :
    apiGetPaste s i t = (⟨404, some "Paste not found", none, none, none⟩, s) := by
  simp [apiGetPaste, h]

theorem apiGetPaste_expired (s : Store) (i : String) (p : Paste) (t : Nat)
    (hget : storeGet s i = some p) (hc : p.content ≠ "")
    (hexp : ttlExpired (jsNumField p.ttl_seconds) p.created_at t = true) :
    apiGetPaste s i t = (⟨404, some "Paste expired", none, none, none⟩, storeDel s i) := by
  simp [apiGetPaste, hget, hc, hexp]

theorem apiGetPaste_exhausted (s : Store) (i : String) (p : Paste) (t : Nat)
    (hget : storeGet s i = some p) (hc : p.content ≠ "")
    (hexp : ttlExpired (jsNumField p.ttl_seconds) p.created_at t = false)
    (hexh : viewsExhausted (jsNumField p.max_views) p.views = true) :
    apiGetPaste s i t =
      (⟨404, some "View limit exceeded", none, none, none⟩, storeDel s i) := by
  simp [apiGetPaste, hget, hc, hexp, hexh]

theorem apiGetPaste_available (s : Store) (i : String) (p : Paste) (t : Nat)
    (hget : storeGet s i = some p) (hc : p.content ≠ "")
    (hexp : ttlExpired (jsNumField p.ttl_seconds) p.created_at t = false)
    (hexh : viewsExhausted (jsNumField p.max_views) p.views = false) :
    apiGetPaste s i t =
      (⟨200, none, some p.content,
          (jsNumField p.max_views).map fun m => m - (p.views + 1),
          (jsNumField p.ttl_seconds).map fun ttl => p.created_at + ttl * 1000⟩,
        storeSet s i { p with views := p.views + 1 }) := by
  simp [apiGetPaste, hget, hc, hexp, hexh]

/-! ## Validation and creation lemmas -/

theorem badContent_of_trim (c : String) (h : jsTrim c ≠ "") :
    badContent (some c) = false := by
  have hc : c ≠ "" := by
    rintro rfl
    exact h rfl
  simp [badContent, hc, h]

theorem badIntField_natCast (T : Nat) (h : 1 ≤ T) :
    badIntField (some (T : Rat)) = false := by
  have h1 : (1 : Rat) ≤ (T : Rat) := by exact_mod_cast h
  simp [badIntField, Rat.den_natCast, not_lt.mpr h1]

theorem storedIntField_natCast (T : Nat) :
    storedIntField (some (T : Rat)) = some T := by
  simp [storedIntField, Rat.num_natCast]

theorem storedIntField_pos (q : Rat) (h : badIntField (some q) = false) :
    ∃ n, storedIntField (some q) = some n ∧ 1 ≤ n := by
  simp only [badIntField, Bool.or_eq_false_iff, decide_eq_false_iff_not, not_not,
    not_lt] at h
  have hq : 0 < q.num := Rat.num_pos.mpr (lt_of_lt_of_le one_pos h.2)
  exact ⟨q.num.toNat, rfl, by omega⟩

theorem createPaste_valid (s : Store) (c : String) (ttl mv : Option Rat)
    (uuid : String) (t0 : Nat)
    (hc : badContent (some c) = false) (httl : badIntField ttl = false)
    (hmv : badIntField mv = false) :
    createPaste s ⟨some c, ttl, mv⟩ uuid t0 =
      (⟨201, none, some (sliceId uuid)⟩,
       storeSet s (sliceId uuid)
         ⟨jsTrim c, t0, storedIntField ttl, storedIntField mv, 0⟩) := by
  simp [createPaste, hc, httl, hmv]

theorem fresh_not_exhausted (mv : Option Rat) (hmv : badIntField mv = false) :
    viewsExhausted (jsNumField (storedIntField mv)) 0 = false := by
  cases hmv2 : mv with
  | none => rfl
  | some q =>
    obtain ⟨m, hm, hm1⟩ := storedIntField_pos q (by rw [← hmv2]; exact hmv)
    rw [hm, jsNumField_pos m (by omega)]
    simp [viewsExhausted]
    omega

theorem fresh_ttl_not_expired (T t0 t : Nat) (hT : 1 ≤ T) (ht : t < t0 + T * 1000) :
    ttlExpired (jsNumField (some T)) t0 t = false := by
  rw [jsNumField_pos T (by omega)]
  simp [ttlExpired]
  omega

theorem ttl_expired_after (T t0 t : Nat) (hT : 1 ≤ T) (ht : t0 + T * 1000 ≤ t) :
    ttlExpired (jsNumField (some T)) t0 t = true := by
  rw [jsNumField_pos T (by omega)]
  simp [ttlExpired]
  omega

/-- C1: for a paste created with a valid `ttl_seconds = T`, retrieval at
request time `created_at + T*1000 - 1` answers 200 with the content, and
retrieval at `created_at + T*1000` or any later time answers 404. -/
theorem ttl_expiry_boundary (s : Store) (c : String) (T : Nat) (mv : Option Rat)
    (uuid : String) (t0 : Nat)
    (hc : jsTrim c ≠ "") (hT : 1 ≤ T) (hmv : badIntField mv = false) :
    (createPaste s ⟨some c, some (T : Rat), mv⟩ uuid t0).1.status = 201 ∧
    (apiGetPaste (createPaste s ⟨some c, some (T : Rat), mv⟩ uuid t0).2 (sliceId uuid)
        (t0 + T * 1000 - 1)).1.status = 200 ∧
    (apiGetPaste (createPaste s ⟨some c, some (T : Rat), mv⟩ uuid t0).2 (sliceId uuid)
        (t0 + T * 1000 - 1)).1.content = some (jsTrim c) ∧
    ∀ t, t0 + T * 1000 ≤ t →
      (apiGetPaste (createPaste s ⟨some c, some (T : Rat), mv⟩ uuid t0).2 (sliceId uuid)
          t).1.status = 404 ∧
      (apiGetPaste (createPaste s ⟨some c, some (T : Rat), mv⟩ uuid t0).2 (sliceId uuid)
          t).1.error = some "Paste expired" := by
  have hcc := badContent_of_trim c hc
  have httl := badIntField_natCast T hT
  rw [createPaste_valid s c _ mv uuid t0 hcc httl hmv]
  have hget : storeGet
      (storeSet s (sliceId uuid)
        ⟨jsTrim c, t0, storedIntField (some (T : Rat)), storedIntField mv, 0⟩)
      (sliceId uuid) =
      some ⟨jsTrim c, t0, storedIntField (some (T : Rat)), storedIntField mv, 0⟩ := by
    simp [storeGet_storeSet]
  have hexp : ttlExpired
      (jsNumField (Paste.ttl_seconds
        ⟨jsTrim c, t0, storedIntField (some (T : Rat)), storedIntField mv, 0⟩))
      t0 (t0 + T * 1000 - 1) = false := by
    rw [show Paste.ttl_seconds
        ⟨jsTrim c, t0, storedIntField (some (T : Rat)), storedIntField mv, 0⟩ =
        storedIntField (some (T : Rat)) from rfl, storedIntField_natCast T]
    exact fresh_ttl_not_expired T t0 _ hT (by omega)
  have hexh : viewsExhausted
      (jsNumField (Paste.max_views
        ⟨jsTrim c, t0, storedIntField (some (T : Rat)), storedIntField mv, 0⟩))
      0 = false := fresh_not_exhausted mv hmv
  refine ⟨rfl, ?_, ?_, ?_⟩
  · rw [apiGetPaste_available _ _ _ _ hget hc hexp hexh]
  · rw [apiGetPaste_available _ _ _ _ hget hc hexp hexh]
  · intro t ht
    have hexpT : ttlExpired
        (jsNumField (Paste.ttl_seconds
          ⟨jsTrim c, t0, storedIntField (some (T : Rat)), storedIntField mv, 0⟩))
        t0 t = true := by
      rw [show Paste.ttl_seconds
          ⟨jsTrim c, t0, storedIntField (some (T : Rat)), storedIntField mv, 0⟩ =
          storedIntField (some (T : Rat)) from rfl, storedIntField_natCast T]
      exact ttl_expired_after T t0 t hT ht
    rw [apiGetPaste_expired _ _ _ _ hget hc hexpT]
    exact ⟨rfl, rfl⟩

/-- C1 witness: a concrete paste with `ttl_seconds = 2` created at time 0
is retrievable at 1999 and gone from 2000 on. -/
theorem ttl_expiry_boundary_witness :
    (createPaste [] ⟨some "hi", some ((2 : Nat) : Rat), none⟩ "u" 0).1.status = 201 ∧
    (apiGetPaste (createPaste [] ⟨some "hi", some ((2 : Nat) : Rat), none⟩ "u" 0).2
        (sliceId "u") (0 + 2 * 1000 - 1)).1.status = 200 ∧
    (apiGetPaste (createPaste [] ⟨some "hi", some ((2 : Nat) : Rat), none⟩ "u" 0).2
        (sliceId "u") (0 + 2 * 1000 - 1)).1.content = some (jsTrim "hi") ∧
    ∀ t, 0 + 2 * 1000 ≤ t →
      (apiGetPaste (createPaste [] ⟨some "hi", some ((2 : Nat) : Rat), none⟩ "u" 0).2
          (sliceId "u") t).1.status = 404 ∧
      (apiGetPaste (createPaste [] ⟨some "hi", some ((2 : Nat) : Rat), none⟩ "u" 0).2
          (sliceId "u") t).1.error = some "Paste expired" :=
  ttl_expiry_boundary [] "hi" 2 none "u" 0 (by decide) (by decide) (by decide)

/-! ## Sequential retrieval under a view limit -/

theorem viewsExhausted_lt (M v : Nat) (h : v < M) :
    viewsExhausted (jsNumField (some M)) v = false := by
  rw [jsNumField_pos M (by omega)]
  simp [viewsExhausted]
  omega

theorem viewsExhausted_ge (M v : Nat) (hM : 1 ≤ M) (h : M ≤ v) :
    viewsExhausted (jsNumField (some M)) v = true := by
  rw [jsNumField_pos M (by omega)]
  simp [viewsExhausted, h]

theorem runGets_succ (s : Store) (i : String) (t n : Nat) :
    runGets s i t (n + 1) =
      ((apiGetPaste s i t).1 :: (runGets (apiGetPaste s i t).2 i t n).1,
       (runGets (apiGetPaste s i t).2 i t n).2) := rfl

theorem runGets_exhaust (base : Store) (i : String) (cnt : String) (ca t M : Nat)
    (hc : cnt ≠ "") (hM : 1 ≤ M) :
    ∀ n v, v + n = M →
      runGets (storeSet base i ⟨cnt, ca, none, some M, v⟩) i t (n + 1) =
        ((List.range n).map (fun k =>
            (⟨200, none, some cnt, some (n - (k + 1)), none⟩ : ApiResponse)) ++
          [⟨404, some "View limit exceeded", none, none, none⟩],
         storeDel base i) := by
  intro n
  induction n with
  | zero =>
    intro v hv
    have hget : storeGet (storeSet base i ⟨cnt, ca, none, some M, v⟩) i =
        some ⟨cnt, ca, none, some M, v⟩ := by
      simp [storeGet_storeSet]
    have hexh : viewsExhausted (jsNumField (some M)) v = true :=
      viewsExhausted_ge M v hM (by omega)
    have hstep := apiGetPaste_exhausted (storeSet base i ⟨cnt, ca, none, some M, v⟩)
      i ⟨cnt, ca, none, some M, v⟩ t hget hc rfl hexh
    simp [runGets, hstep, storeDel_storeSet]
  | succ m ih =>
    intro v hv
    have hget : storeGet (storeSet base i ⟨cnt, ca, none, some M, v⟩) i =
        some ⟨cnt, ca, none, some M, v⟩ := by
      simp [storeGet_storeSet]
    have hexh : viewsExhausted (jsNumField (some M)) v = false :=
      viewsExhausted_lt M v (by omega)
    have hstep := apiGetPaste_available (storeSet base i ⟨cnt, ca, none, some M, v⟩)
      i ⟨cnt, ca, none, some M, v⟩ t hget hc rfl hexh
    have hrest := ih (v + 1) (by omega)
    have hMv : M - (v + 1) = m := by omega
    have harith : ∀ k : Nat, m + 1 - (k + 1 + 1) = m - (k + 1) := fun k => by omega
    rw [runGets_succ, hstep]
    dsimp only
    rw [storeSet_storeSet, hrest]
    rw [List.range_succ_eq_map, List.map_cons, List.map_map]
    refine Prod.ext ?_ rfl
    simp [jsNumField_pos M (by omega), hMv, Nat.succ_sub_succ]
    rfl

/-- C2: a paste created with a valid `max_views = M` and no TTL serves its
first `M` retrievals with 200 and `remaining_views = M-1, M-2, …, 0`
(remaining computed as `max(max_views - newViews, 0)` from the same
retrieval's post-increment counter), and the `(M+1)`th retrieval answers
404. -/
theorem max_views_sequence (s : Store) (c : String) (M : Nat) (uuid : String)
    (t0 t : Nat) (hc : jsTrim c ≠ "") (hM : 1 ≤ M) :
    (createPaste s ⟨some c, none, some (M : Rat)⟩ uuid t0).1.status = 201 ∧
    (runGets (createPaste s ⟨some c, none, some (M : Rat)⟩ uuid t0).2 (sliceId uuid)
        t (M + 1)).1 =
      (List.range M).map (fun k =>
          (⟨200, none, some (jsTrim c), some (M - (k + 1)), none⟩ : ApiResponse)) ++
        [⟨404, some "View limit exceeded", none, none, none⟩] := by
  have hcc := badContent_of_trim c hc
  have hmv := badIntField_natCast M hM
  rw [createPaste_valid s c none _ uuid t0 hcc rfl hmv]
  refine ⟨rfl, ?_⟩
  rw [show (⟨jsTrim c, t0, storedIntField none, storedIntField (some (M : Rat)), 0⟩ :
      Paste) = ⟨jsTrim c, t0, none, some M, 0⟩ by
    rw [storedIntField_natCast M]
    rfl]
  rw [runGets_exhaust s (sliceId uuid) (jsTrim c) t0 t M hc hM M 0 (by omega)]

/-- C2 witness: a concrete paste with `max_views = 2` serves remaining
views 1 then 0 and then 404, matching the two-view scenario. -/
theorem max_views_sequence_witness :
    (createPaste [] ⟨some "x", none, some ((2 : Nat) : Rat)⟩ "u" 0).1.status = 201 ∧
    (runGets (createPaste [] ⟨some "x", none, some ((2 : Nat) : Rat)⟩ "u" 0).2
        (sliceId "u") 5 (2 + 1)).1 =
      (List.range 2).map (fun k =>
          (⟨200, none, some (jsTrim "x"), some (2 - (k + 1)), none⟩ : ApiResponse)) ++
        [⟨404, some "View limit exceeded", none, none, none⟩] :=
  max_views_sequence [] "x" 2 "u" 0 5 (by decide) (by decide)

/-! ## Uniform 404 status (C3) -/

/-- C3 counterexample: the absent case and the expired case both answer
404, but their response bodies differ (`Paste not found` against
`Paste expired`), so the failure outcomes are distinguishable by the
caller. -/
theorem notFound_bodies_distinguishable :
    (apiGetPaste [] "zz" 0).1.status = 404 ∧
    (apiGetPaste [("aa", ⟨"hello", 0, some 2, none, 0⟩)] "aa" 2000).1.status = 404 ∧
    (apiGetPaste [] "zz" 0).1.error = some "Paste not found" ∧
    (apiGetPaste [("aa", ⟨"hello", 0, some 2, none, 0⟩)] "aa" 2000).1.error =
      some "Paste expired" ∧
    (apiGetPaste [("aa", ⟨"hello", 0, some 2, none, 0⟩)] "aa" 2000).1 ≠
      (apiGetPaste [] "zz" 0).1 ∧
    (htmlGetPaste [("aa", ⟨"hello", 0, some 2, none, 0⟩)] "aa" 2000).1 ≠
      (htmlGetPaste [] "zz" 0).1 := by
  decide

/-- C3 (amended): every retrieval that does not succeed — absent id,
expired record or exhausted record — answers with the same 404 status, in
the JSON handler and in the HTML handler alike; the response body,
however, names the reason, so the cases are not fully indistinguishable. -/
theorem failure_status_uniform (s : Store) (i : String) (t : Nat) :
    ((apiGetPaste s i t).1.status = 200 ∨ (apiGetPaste s i t).1.status = 404) ∧
    ((apiGetPaste s i t).1.status ≠ 200 → (apiGetPaste s i t).1.status = 404) ∧
    ((htmlGetPaste s i t).1.status = 200 ∨ (htmlGetPaste s i t).1.status = 404) := by
  rcases h : storeGet s i with _ | p
  · simp [apiGetPaste, htmlGetPaste, h, HtmlResponse.status]
  · simp only [apiGetPaste, htmlGetPaste, h]
    split_ifs <;> simp [HtmlResponse.status]

/-! ## Rejected creations (C4) -/

/-- C4: a creation request with invalid input — content missing, empty or
whitespace-only after trimming, or `ttl_seconds` / `max_views` present but
not an integer at least 1 — answers 400 with an error body, no id, and
leaves the store unchanged: validation happens before any mutation. -/
theorem invalid_create_rejected (s : Store) (req : CreateReq) (uuid : String)
    (t0 : Nat)
    (h : badContent req.content = true ∨ badIntField req.ttl_seconds = true ∨
      badIntField req.max_views = true) :
    (createPaste s req uuid t0).1.status = 400 ∧
    (createPaste s req uuid t0).1.id = none ∧
    (∃ e, (createPaste s req uuid t0).1.error = some e) ∧
    (createPaste s req uuid t0).2 = s := by
  unfold createPaste
  split_ifs with h1 h2 h3 <;> simp_all

/-- C4 witness: whitespace-only content is rejected with 400 and the
store stays empty. -/
theorem invalid_create_rejected_witness :
    (createPaste [] ⟨some " ", none, none⟩ "u" 0).1.status = 400 ∧
    (createPaste [] ⟨some " ", none, none⟩ "u" 0).1.id = none ∧
    (∃ e, (createPaste [] ⟨some " ", none, none⟩ "u" 0).1.error = some e) ∧
    (createPaste [] ⟨some " ", none, none⟩ "u" 0).2 = [] :=
  invalid_create_rejected [] ⟨some " ", none, none⟩ "u" 0 (Or.inl (by decide))

/-! ## Deletion of unavailable records (C5) -/

/-- C5 counterexample: in the src/unnamed/part_000 handler, a retrieval
that finds an expired record answers 404 without deleting it — the store
is unchanged and a subsequent lookup still finds the record. -/
theorem part0_keeps_expired_record :
    (apiGetPastePart0 [("aa", ⟨"hello", 0, some 2, none, 0⟩)] "aa" 2000).1.status = 404 ∧
    (apiGetPastePart0 [("aa", ⟨"hello", 0, some 2, none, 0⟩)] "aa" 2000).2 =
      [("aa", ⟨"hello", 0, some 2, none, 0⟩)] ∧
    storeGet (apiGetPastePart0 [("aa", ⟨"hello", 0, some 2, none, 0⟩)] "aa" 2000).2
      "aa" = some ⟨"hello", 0, some 2, none, 0⟩ := by
  decide

/-- C5 (amended): in the src/server.js handlers (JSON and HTML alike), a
retrieval that finds a record expired by time or exhausted by views
answers 404 and deletes the record, so a subsequent lookup of the same id
finds nothing; the src/unnamed/part_000 variant reports the same 404 but
keeps the record. -/
theorem unavailable_record_deleted (s : Store) (i : String) (p : Paste) (t : Nat)
    (hget : storeGet s i = some p) (hc : p.content ≠ "")
    (hna : ttlExpired (jsNumField p.ttl_seconds) p.created_at t = true ∨
      viewsExhausted (jsNumField p.max_views) p.views = true) :
    (apiGetPaste s i t).1.status = 404 ∧
    storeGet (apiGetPaste s i t).2 i = none ∧
    (htmlGetPaste s i t).1.status = 404 ∧
    storeGet (htmlGetPaste s i t).2 i = none := by
  rcases hna with hexp | hexh
  · simp [apiGetPaste, htmlGetPaste, hget, hc, hexp, storeGet_storeDel_self,
      HtmlResponse.status]
  · by_cases hexp : ttlExpired (jsNumField p.ttl_seconds) p.created_at t = true
    · simp [apiGetPaste, htmlGetPaste, hget, hc, hexp, storeGet_storeDel_self,
        HtmlResponse.status]
    · simp [apiGetPaste, htmlGetPaste, hget, hc, hexp, hexh, storeGet_storeDel_self,
        HtmlResponse.status]

/-- C5 witness: a concrete expired record is deleted by the failed read
in both src/server.js handlers. -/
theorem unavailable_record_deleted_witness :
    (apiGetPaste [("aa", ⟨"hello", 0, some 2, none, 0⟩)] "aa" 2000).1.status = 404 ∧
    storeGet (apiGetPaste [("aa", ⟨"hello", 0, some 2, none, 0⟩)] "aa" 2000).2 "aa" =
      none ∧
    (htmlGetPaste [("aa", ⟨"hello", 0, some 2, none, 0⟩)] "aa" 2000).1.status = 404 ∧
    storeGet (htmlGetPaste [("aa", ⟨"hello", 0, some 2, none, 0⟩)] "aa" 2000).2 "aa" =
      none :=
  unavailable_record_deleted [("aa", ⟨"hello", 0, some 2, none, 0⟩)] "aa"
    ⟨"hello", 0, some 2, none, 0⟩ 2000 (by decide) (by decide) (Or.inl (by decide))

/-! ## Creation id shape and immediate retrieval (C6) -/

theorem fresh_created_not_expired (ttl : Option Rat) (httl : badIntField ttl = false)
    (t0 : Nat) :
    ttlExpired (jsNumField (storedIntField ttl)) t0 t0 = false := by
  cases h2 : ttl with
  | none => rfl
  | some q =>
    obtain ⟨T, hT, hT1⟩ := storedIntField_pos q (by rw [← h2]; exact httl)
    rw [hT]
    exact fresh_ttl_not_expired T t0 t0 hT1 (by omega)

/-- C6: creating a paste with valid content returns 201 with an id of
exactly 8 characters drawn from the uuid hex alphabet, and a retrieval of
that id performed at the creation time — before any expiry or view limit
can apply — answers 200 with exactly the trimmed content. -/
theorem create_id_shape_roundtrip (s : Store) (c : String) (ttl mv : Option Rat)
    (uuid : String) (t0 : Nat) (hc : jsTrim c ≠ "")
    (httl : badIntField ttl = false) (hmv : badIntField mv = false)
    (hu : uuidShape uuid = true) :
    (createPaste s ⟨some c, ttl, mv⟩ uuid t0).1.status = 201 ∧
    (createPaste s ⟨some c, ttl, mv⟩ uuid t0).1.id = some (sliceId uuid) ∧
    (sliceId uuid).length = 8 ∧
    (∀ ch ∈ (sliceId uuid).data, hexDigits.contains ch = true) ∧
    (apiGetPaste (createPaste s ⟨some c, ttl, mv⟩ uuid t0).2 (sliceId uuid)
        t0).1.status = 200 ∧
    (apiGetPaste (createPaste s ⟨some c, ttl, mv⟩ uuid t0).2 (sliceId uuid)
        t0).1.content = some (jsTrim c) := by
  have hcc := badContent_of_trim c hc
  rw [createPaste_valid s c ttl mv uuid t0 hcc httl hmv]
  simp only [uuidShape, Bool.and_eq_true, decide_eq_true_eq, List.all_eq_true] at hu
  obtain ⟨hlen, hhex⟩ := hu
  have hget : storeGet
      (storeSet s (sliceId uuid) ⟨jsTrim c, t0, storedIntField ttl, storedIntField mv, 0⟩)
      (sliceId uuid) =
      some ⟨jsTrim c, t0, storedIntField ttl, storedIntField mv, 0⟩ := by
    simp [storeGet_storeSet]
  have havail := apiGetPaste_available _ (sliceId uuid)
    ⟨jsTrim c, t0, storedIntField ttl, storedIntField mv, 0⟩ t0 hget hc
    (fresh_created_not_expired ttl httl t0) (fresh_not_exhausted mv hmv)
  refine ⟨rfl, rfl, ?_, ?_, ?_, ?_⟩
  · show (String.mk (uuid.data.take 8)).length = 8
    simp [String.length, List.length_take, hlen]
  · intro ch hch
    exact hhex ch hch
  · rw [havail]
  · rw [havail]

/-- C6 witness: a concrete creation with a canonical uuid string yields
the 8-character hex id and an immediate retrieval returns the trimmed
content. -/
theorem create_id_shape_roundtrip_witness :
    (createPaste [] ⟨some " hi ", none, none⟩
        "abcd1234-ef00-4000-8000-000000000000" 0).1.status = 201 ∧
    (createPaste [] ⟨some " hi ", none, none⟩
        "abcd1234-ef00-4000-8000-000000000000" 0).1.id =
      some (sliceId "abcd1234-ef00-4000-8000-000000000000") ∧
    (sliceId "abcd1234-ef00-4000-8000-000000000000").length = 8 ∧
    (∀ ch ∈ (sliceId "abcd1234-ef00-4000-8000-000000000000").data,
      hexDigits.contains ch = true) ∧
    (apiGetPaste (createPaste [] ⟨some " hi ", none, none⟩
        "abcd1234-ef00-4000-8000-000000000000" 0).2
        (sliceId "abcd1234-ef00-4000-8000-000000000000") 0).1.status = 200 ∧
    (apiGetPaste (createPaste [] ⟨some " hi ", none, none⟩
        "abcd1234-ef00-4000-8000-000000000000" 0).2
        (sliceId "abcd1234-ef00-4000-8000-000000000000") 0).1.content =
      some (jsTrim " hi ") :=
  create_id_shape_roundtrip [] " hi " none none
    "abcd1234-ef00-4000-8000-000000000000" 0 (by decide) (by decide) (by decide)
    (by decide)

/-! ## The view counter and the frame of a retrieval (C7) -/

/-- C7: a successful (200) retrieval increments the found record's
`views` by exactly 1 and changes nothing else — neither the record's
other fields nor any other key; a retrieval that answers 404 (absent,
expired or exhausted) performs no increment and no field update: every
record present afterwards is exactly as it was before (the unavailable
record itself may only have been deleted whole). -/
theorem views_increment_frame (s : Store) (i : String) (t : Nat) :
    ((apiGetPaste s i t).1.status = 200 →
      ∃ p, storeGet s i = some p ∧
        storeGet (apiGetPaste s i t).2 i = some { p with views := p.views + 1 } ∧
        ∀ j, j ≠ i → storeGet (apiGetPaste s i t).2 j = storeGet s j) ∧
    ((apiGetPaste s i t).1.status ≠ 200 →
      ∀ j q, storeGet (apiGetPaste s i t).2 j = some q → storeGet s j = some q) := by
  rcases h : storeGet s i with _ | p
  · rw [apiGetPaste_absent s i t h]
    exact ⟨fun h200 => by simp at h200, fun _ j q hq => hq⟩
  · by_cases hc : p.content = ""
    · have habs : apiGetPaste s i t =
          (⟨404, some "Paste not found", none, none, none⟩, s) := by
        simp [apiGetPaste, h, hc]
      rw [habs]
      exact ⟨fun h200 => by simp at h200, fun _ j q hq => hq⟩
    · by_cases hexp : ttlExpired (jsNumField p.ttl_seconds) p.created_at t = true
      · rw [apiGetPaste_expired s i p t h hc hexp]
        refine ⟨fun h200 => by simp at h200, fun _ j q hq => ?_⟩
        by_cases hj : j = i
        · rw [hj, storeGet_storeDel_self] at hq
          exact absurd hq (by simp)
        · rw [storeGet_storeDel_ne s i j hj] at hq
          exact hq
      · have hexp' : ttlExpired (jsNumField p.ttl_seconds) p.created_at t = false := by
          simpa using hexp
        by_cases hexh : viewsExhausted (jsNumField p.max_views) p.views = true
        · rw [apiGetPaste_exhausted s i p t h hc hexp' hexh]
          refine ⟨fun h200 => by simp at h200, fun _ j q hq => ?_⟩
          by_cases hj : j = i
          · rw [hj, storeGet_storeDel_self] at hq
            exact absurd hq (by simp)
          · rw [storeGet_storeDel_ne s i j hj] at hq
            exact hq
        · have hexh' : viewsExhausted (jsNumField p.max_views) p.views = false := by
            simpa using hexh
          rw [apiGetPaste_available s i p t h hc hexp' hexh']
          constructor
          · intro _
            refine ⟨p, rfl, by simp [storeGet_storeSet], fun j hj => ?_⟩
            simp [storeGet_storeSet, hj]
          · intro h200
            exact absurd rfl h200

/-! ## The JSON and the HTML handler agree (C10) -/

/-- C10: on every store, id and request time, `GET /api/pastes/:id` and
`GET /p/:id` make the same availability decision — the same status code
(200 exactly when available, 404 otherwise) — and leave the store in the
same state (the same increment when available, the same deletion when
expired or exhausted). -/
theorem api_html_same_decision (s : Store) (i : String) (t : Nat) :
    (apiGetPaste s i t).1.status = ((htmlGetPaste s i t).1).status ∧
    (apiGetPaste s i t).2 = (htmlGetPaste s i t).2 := by
  rcases h : storeGet s i with _ | p
  · simp [apiGetPaste, htmlGetPaste, h, HtmlResponse.status]
  · simp only [apiGetPaste, htmlGetPaste, h]
    split_ifs <;> simp [HtmlResponse.status]

/-! ## HTML escaping (C9) -/

theorem escapeList_append (l1 l2 : List Char) :
    escapeList (l1 ++ l2) = escapeList l1 ++ escapeList l2 := by
  induction l1 with
  | nil => simp [escapeList]
  | cons c rest ih => simp [escapeList, ih, String.append_assoc]

theorem escapeChar_no_tags (c ch : Char) (h : ch ∈ (escapeChar c).data) :
    ch ≠ ltChar ∧ ch ≠ gtChar := by
  by_cases h1 : c = ampChar
  · subst h1
    rw [show escapeChar ampChar = "&amp;" from rfl] at h
    fin_cases h <;> decide
  · by_cases h2 : c = ltChar
    · subst h2
      rw [show escapeChar ltChar = "&lt;" from rfl] at h
      fin_cases h <;> decide
    · by_cases h3 : c = gtChar
      · subst h3
        rw [show escapeChar gtChar = "&gt;" from rfl] at h
        fin_cases h <;> decide
      · by_cases h4 : c = quotChar
        · subst h4
          rw [show escapeChar quotChar = "&quot;" from rfl] at h
          fin_cases h <;> decide
        · by_cases h5 : c = aposChar
          · subst h5
            rw [show escapeChar aposChar = "&#39;" from rfl] at h
            fin_cases h <;> decide
          · rw [show escapeChar c = String.singleton c by
              simp [escapeChar, h1, h2, h3, h4, h5]] at h
            simp [String.singleton] at h
            subst h
            exact ⟨h2, h3⟩

theorem escapeList_no_tags (l : List Char) :
    ∀ ch ∈ (escapeList l).data, ch ≠ ltChar ∧ ch ≠ gtChar := by
  induction l with
  | nil =>
    intro ch h
    simp [escapeList] at h
  | cons c rest ih =>
    intro ch h
    rw [show escapeList (c :: rest) = escapeChar c ++ escapeList rest from rfl,
      String.data_append] at h
    rcases List.mem_append.mp h with h | h
    · exact escapeChar_no_tags c ch h
    · exact ih ch h

/-- C9: `escapeHtml` processes a string character by character (it is a
homomorphism for concatenation), turns each of the five characters
`& < > " '` into its HTML entity, leaves every other character unchanged,
and its output never contains a raw `<` or `>`; the HTML handler renders
exactly `escapeHtml` of the stored content into the 200 page. -/
theorem escape_html_contract (s t : String) (c : Char)
    (hc1 : c ≠ ampChar) (hc2 : c ≠ ltChar) (hc3 : c ≠ gtChar) (hc4 : c ≠ quotChar)
    (hc5 : c ≠ aposChar) :
    escapeHtml (s ++ t) = escapeHtml s ++ escapeHtml t ∧
    escapeHtml (String.singleton c) = String.singleton c ∧
    escapeHtml (String.singleton ampChar) = "&amp;" ∧
    escapeHtml (String.singleton ltChar) = "&lt;" ∧
    escapeHtml (String.singleton gtChar) = "&gt;" ∧
    escapeHtml (String.singleton quotChar) = "&quot;" ∧
    escapeHtml (String.singleton aposChar) = "&#39;" ∧
    (∀ ch ∈ (escapeHtml s).data, ch ≠ ltChar ∧ ch ≠ gtChar) ∧
    ∀ s2 i tm st e v m x,
      (htmlGetPaste s2 i tm).1 = HtmlResponse.ok st e v m x →
      ∃ p, storeGet s2 i = some p ∧ e = escapeHtml p.content := by
  refine ⟨?_, ?_, by decide, by decide, by decide, by decide, by decide,
    escapeList_no_tags s.data, ?_⟩
  · rw [escapeHtml, escapeHtml, escapeHtml, String.data_append, escapeList_append]
  · have hsing : (String.singleton c).data = [c] := by simp [String.singleton]
    rw [escapeHtml, hsing, escapeList, escapeList]
    simp [escapeChar, hc1, hc2, hc3, hc4, hc5]
  · intro s2 i tm st e v m x hok
    rcases hget : storeGet s2 i with _ | p
    · rw [show (htmlGetPaste s2 i tm).1 =
          HtmlResponse.notFound 404 "<h1>404 - Paste not found</h1>" by
        simp [htmlGetPaste, hget]] at hok
      exact absurd hok (by simp)
    · refine ⟨p, rfl, ?_⟩
      by_cases hcc : p.content = ""
      · rw [show (htmlGetPaste s2 i tm).1 =
            HtmlResponse.notFound 404 "<h1>404 - Paste not found</h1>" by
          simp [htmlGetPaste, hget, hcc]] at hok
        exact absurd hok (by simp)
      · by_cases hexp : ttlExpired (jsNumField p.ttl_seconds) p.created_at tm = true
        · rw [show (htmlGetPaste s2 i tm).1 =
              HtmlResponse.notFound 404 "<h1>404 - Paste expired</h1>" by
            simp [htmlGetPaste, hget, hcc, hexp]] at hok
          exact absurd hok (by simp)
        · by_cases hexh : viewsExhausted (jsNumField p.max_views) p.views = true
          · rw [show (htmlGetPaste s2 i tm).1 =
                HtmlResponse.notFound 404 "<h1>404 - View limit exceeded</h1>" by
              simp [htmlGetPaste, hget, hcc, hexp, hexh]] at hok
            exact absurd hok (by simp)
          · rw [show (htmlGetPaste s2 i tm).1 =
                HtmlResponse.ok 200 (escapeHtml p.content) (p.views + 1)
                  (jsNumField p.max_views)
                  ((jsNumField p.ttl_seconds).map fun x => p.created_at + x * 1000) by
              simp [htmlGetPaste, hget, hcc, hexp, hexh]] at hok
            injection hok with _ he _ _ _
            exact he.symm

/-- C9 witness: concrete escaping of a string containing a raw tag and
preservation of an ordinary letter. -/
theorem escape_html_contract_witness :
    escapeHtml ("a<b" ++ "c") = escapeHtml "a<b" ++ escapeHtml "c" ∧
    escapeHtml (String.singleton (Char.ofNat 120)) =
      String.singleton (Char.ofNat 120) ∧
    escapeHtml (String.singleton ampChar) = "&amp;" ∧
    escapeHtml (String.singleton ltChar) = "&lt;" ∧
    escapeHtml (String.singleton gtChar) = "&gt;" ∧
    escapeHtml (String.singleton quotChar) = "&quot;" ∧
    escapeHtml (String.singleton aposChar) = "&#39;" ∧
    (∀ ch ∈ (escapeHtml "a<b").data, ch ≠ ltChar ∧ ch ≠ gtChar) ∧
    ∀ s2 i tm st e v m x,
      (htmlGetPaste s2 i tm).1 = HtmlResponse.ok st e v m x →
      ∃ p, storeGet s2 i = some p ∧ e = escapeHtml p.content :=
  escape_html_contract "a<b" "c" (Char.ofNat 120) (by decide) (by decide) (by decide)
    (by decide) (by decide)
